import Mathlib

/-!
Shallow embedding of the satellite data visualizer (satellite-data-visualizer.py)
for checking its specification. Python exceptions are modelled with Except,
floating point numbers with the reals (for propagation angles) or the
rationals (for clock readings), mutable dictionaries shared by reference with
indices into the authoritative list, and the external collaborators (urllib,
zipfile, pyephem, the file system) with explicit environment records. Each
definition follows the corresponding Python function; ghost fields used only
by the statements (warning lists, a mutation-outside-lock flag) are noted
where they appear.
-/

namespace SatViz

/-- Python exceptions that the modelled code can raise or catch. -/
inductive PyErr where
  | indexError
  | valueError
  | typeError
  | keyError
  | nameError
  | fileNotFound
deriving DecidableEq

/-! ## String helpers: sanitize_filename and dequote -/

/-- The whitelist of the sanitize_filename function (the raw string
literal of characters kept besides alphanumerics). The apostrophe and the
braces are written by code point. -/
def okChars : List Char :=
  ['.', '_', Char.ofNat 39, ' ', ',', ';', '[', ']', '(', ')',
   Char.ofNat 123, Char.ofNat 125, '!', '@', '#', '%', '^', '&']

/-- Python str.isalnum restricted to ASCII letters and digits; the broader
Unicode alphanumerics accepted by Python are outside the whitelist question
for the separator characters this development cares about. -/
def pyIsAlnum (c : Char) : Bool := c.isAlpha || c.isDigit

/-- Python str.rstrip with no argument: drop trailing whitespace. -/
def pyRstrip (s : String) : String :=
  String.mk (s.data.reverse.dropWhile Char.isWhitespace).reverse

/-- sanitize_filename: keep alphanumerics and whitelisted characters, then
strip trailing whitespace. -/
def sanitize_filename (name : String) : String :=
  pyRstrip (String.mk (name.data.filter fun c => pyIsAlnum c || c ∈ okChars))

/-- Python membership of a character in the pair of quote characters used by
dequote via startswith. -/
def isQuoteChar (c : Char) : Bool := c = Char.ofNat 39 || c = '"'

/-- dequote: on the empty string the subscript s[0] raises IndexError;
otherwise the surrounding matching quotes, when present, are removed via
s[1:-1], and the string is returned unchanged when they are not. -/
def dequote (s : String) : Except PyErr String :=
  match s.data with
  | [] => .error .indexError
  | c :: cs =>
      if (c :: cs).getLast (List.cons_ne_nil c cs) = c ∧ isQuoteChar c = true then
        .ok (String.mk cs.dropLast)
      else .ok s

/-! ## Data model: observer, propagated body, satellite record -/

/-- Observer geometry and clock, consumed by the orbit propagator. The
fields stand for ephem.Observer attributes; the angles and the instant are
abstract here because only the propagation OUTCOME matters to the claims. -/
structure Observer where
  lat : ℚ
  lon : ℚ
  elevation : ℚ
  date : ℚ

/-- Outcome of body.compute(observer): success carries apparent altitude and
azimuth in radians; valueError models the date-out-of-range ValueError;
runtimeError models the generic RuntimeError computation failure. -/
inductive ComputeResult where
  | ok (alt az : ℝ)
  | valueError
  | runtimeError

/-- A pyephem body as the code uses it: a display name, the writedb
serialization of its elements, and the propagation outcome per observer
state. -/
structure Body where
  name : String
  writedb : String
  compute : Observer → ComputeResult

/-- One entry of savedsats: the dictionary built in process_tle_data. -/
structure SatData where
  name : String
  number : String
  designator : String
  source_num : String
  source_name : String
  color : String
  body : Body
  picked : Bool
  plot_idx : Option Nat

/-- The new_sat dictionary literal of process_tle_data: every freshly parsed
record starts with picked = False and no plot index. -/
def mkNewSat (body : Body) (number designator source_num source_name color : String) :
    SatData :=
  { name := body.name, number := number, designator := designator,
    source_num := source_num, source_name := source_name, color := color,
    body := body, picked := false, plot_idx := none }

/-! ## Catalog build: process_tle_data -/

/-- Catalog state built by process_tle_data: the ordered record list and the
identity map from canonical element data to its index. parsedCount is a ghost
counter of successfully parsed triplets (before deduplication). -/
structure CatState where
  savedsats : List SatData
  bodies_dedup : List (String × Nat)
  parsedCount : Nat

def catInit : CatState := { savedsats := [], bodies_dedup := [], parsedCount := 0 }

/-- Python list indexing: out of range raises IndexError. -/
def pyIndex {α : Type} (l : List α) (i : Nat) : Except PyErr α :=
  match l.get? i with
  | some a => .ok a
  | none => .error .indexError

/-- Tokenizer for Python str.split() with no argument: the accumulator holds
the characters of the current token in reverse. -/
def wsTokensAux : List Char → List Char → List String
  | acc, [] =>
      match acc with
      | [] => []
      | _ => [String.mk acc.reverse]
  | acc, c :: cs =>
      if c.isWhitespace then
        match acc with
        | [] => wsTokensAux [] cs
        | _ => String.mk acc.reverse :: wsTokensAux [] cs
      else wsTokensAux (c :: acc) cs

/-- Python str.split() with no argument: split on whitespace runs, dropping
empty fields. -/
def pySplitWs (s : String) : List String := wsTokensAux [] s.data

/-- The characters before and after the first comma of a string, when it has
one: body.writedb().split(sep, 1) for a comma. -/
def splitFirstAux : List Char → Option (List Char × List Char)
  | [] => none
  | c :: cs =>
      if c = ',' then some ([], cs)
      else (splitFirstAux cs).map fun p => (c :: p.1, p.2)

/-- Unpacking body.writedb().split with maxsplit one into a pair: with no
comma the single-element list fails to unpack, a ValueError. -/
def writedbSplit (s : String) : Except PyErr (String × String) :=
  match splitFirstAux s.data with
  | some p => .ok (String.mk p.1, String.mk p.2)
  | none => .error .valueError

/-- The canonical element identity of a stored record: the portion of its
writedb serialization after the first comma. -/
def satDatapart (satdata : SatData) : Option String :=
  (splitFirstAux satdata.body.writedb.data).map fun p => String.mk p.2

/-- The dedup-or-append step at the end of the parse loop: a known
body_datapart replaces the record at its recorded index, a new one is
appended and its index recorded. -/
def ingestSat (st : CatState) (new_sat : SatData) (body_datapart : String) : CatState :=
  match st.bodies_dedup.lookup body_datapart with
  | some sat_index => { st with savedsats := st.savedsats.set sat_index new_sat }
  | none =>
      { st with savedsats := st.savedsats ++ [new_sat],
                bodies_dedup := (body_datapart, st.savedsats.length) :: st.bodies_dedup }

/-- Source descriptor: one config section. section_num is the text after the
blank in the section label, etag and size the persisted freshness markers. -/
structure Source where
  section_num : String
  name : String
  file : String
  url : String
  color : String
  etag : String
  size : Int
deriving DecidableEq

/-- One iteration of the triplet loop of process_tle_data for start indices
i_name, i_name + 1, ...: the while condition 3 * i_name + 2 <= len is tested
before each body, and a false test ends the loop. readtle models
ephem.readtle, returning none for the ValueError its caller catches. The
iteration list is always long enough (the condition fails at the latest at
i_name = len - 1), so iterating the index range is the while loop. -/
def tleLoop (readtle : String → String → String → Option Body) (source : Source)
    (temp_content : List String) : CatState → List Nat → Except PyErr CatState
  | st, [] => .ok st
  | st, i_name :: rest =>
      if 3 * i_name + 2 ≤ temp_content.length then do
        let rawTLEname ← pyIndex temp_content (3 * i_name)
        let rawTLEdat1 ← pyIndex temp_content (3 * i_name + 1)
        let rawTLEdat2 ← pyIndex temp_content (3 * i_name + 2)
        let partsTLEdat1 := pySplitWs rawTLEdat1
        match readtle rawTLEname rawTLEdat1 rawTLEdat2 with
        | none =>
            -- ValueError: the diagnostic is printed and only this record skipped
            tleLoop readtle source temp_content st rest
        | some body => do
            let number ← pyIndex partsTLEdat1 1
            let designator ← pyIndex partsTLEdat1 2
            let split ← writedbSplit body.writedb
            let new_sat := mkNewSat body number designator
                source.section_num source.name source.color
            let st := ingestSat { st with parsedCount := st.parsedCount + 1 } new_sat split.2
            tleLoop readtle source temp_content st rest
      else .ok st

/-- The triplet loop of process_tle_data over the content of one source. -/
def processContent (readtle : String → String → String → Option Body) (source : Source)
    (temp_content : List String) (st : CatState) : Except PyErr CatState :=
  tleLoop readtle source temp_content st (List.range temp_content.length)

/-- A readtle stand-in for concrete evaluations: every triplet parses and the
writedb serialization is the name, a comma, and the first element line. -/
def readtleDemo : String → String → String → Option Body :=
  fun n d1 _ =>
    some { name := n, writedb := n ++ "," ++ d1, compute := fun _ => ComputeResult.valueError }

def sourceDemo : Source :=
  { section_num := "1", name := "Demo", file := "demo.txt", url := "http://demo",
    color := "#FF0000", etag := "", size := 0 }

/-! ## The visibility tick of plot_sats -/

/-- math.degrees: radians to degrees. -/
noncomputable def degrees (x : ℝ) : ℝ := x * (180 / Real.pi)

/-- State threaded through one pass of the per-satellite loop in plot_sats.
sats is savedsats (the dictionaries, mutated in place through their list
position); the plot arrays grow in lock step; plotted_sats and noted_sats
hold indices into sats, standing for the Python object references;
errored_sats is the warned-already set; warnings is a ghost list recording
the diagnostics printed by this pass, in order. -/
structure TickState where
  sats : List SatData
  theta_plot : List ℝ
  radius_plot : List ℝ
  colors : List String
  plot_idx : Nat
  noted_sats : List Nat
  plotted_sats : List Nat
  errored_sats : List String
  warnings : List String

/-- The body of the per-satellite loop: reset the record plot index,
propagate, and either skip silently (ValueError, the date out of range),
warn once per name (RuntimeError), or append the polar coordinates when the
altitude in degrees is above zero. -/
noncomputable def tickStep (home : Observer) (st : TickState) (j : Nat) : TickState :=
  match st.sats.get? j with
  | none => st
  | some satdata =>
    let st := { st with sats := st.sats.set j { satdata with plot_idx := none } }
    match satdata.body.compute home with
    | .valueError => st
    | .runtimeError =>
        if satdata.name ∈ st.errored_sats then st
        else { st with errored_sats := satdata.name :: st.errored_sats,
                       warnings := st.warnings ++ [satdata.name] }
    | .ok alt az =>
        if degrees alt > 0 then
          { st with
            sats := st.sats.set j { satdata with plot_idx := some st.plot_idx },
            radius_plot := st.radius_plot ++ [Real.cos alt],
            theta_plot := st.theta_plot ++ [az],
            colors := st.colors ++ [if satdata.picked then "#000000" else satdata.color],
            noted_sats := if satdata.picked then st.noted_sats ++ [j] else st.noted_sats,
            plotted_sats := st.plotted_sats ++ [j],
            plot_idx := st.plot_idx + 1 }
        else st

noncomputable def tickLoop (home : Observer) : TickState → List Nat → TickState
  | st, [] => st
  | st, j :: rest => tickLoop home (tickStep home st j) rest

def tickInit (sats : List SatData) (errored : List String) : TickState :=
  { sats := sats, theta_plot := [], radius_plot := [], colors := [], plot_idx := 0,
    noted_sats := [], plotted_sats := [], errored_sats := errored, warnings := [] }

/-- One full pass over savedsats, the frame-building section of the while
loop in plot_sats (the loop iterates the records, here by index). -/
noncomputable def tick (home : Observer) (sats : List SatData) (errored : List String) :
    TickState :=
  tickLoop home (tickInit sats errored) (List.range sats.length)

/-- Alignment and correctness of the frame arrays relative to the record
list: every plotted index points at a record whose propagation succeeded
above the horizon with matching polar coordinates. -/
def tickOK (home : Observer) (sats : List SatData) (plotted : List Nat)
    (radius theta : List ℝ) : Prop :=
  radius.length = plotted.length ∧
  theta.length = plotted.length ∧
  ∀ k, k < plotted.length →
    ∃ j satdata alt az,
      plotted.get? k = some j ∧
      sats.get? j = some satdata ∧
      satdata.body.compute home = ComputeResult.ok alt az ∧
      degrees alt > 0 ∧
      radius.get? k = some (Real.cos alt) ∧
      theta.get? k = some az

def TickInv (home : Observer) (st : TickState) : Prop :=
  tickOK home st.sats st.plotted_sats st.radius_plot st.theta_plot

/-! ## Warning deduplication in the tick (keyed by record name) -/

/-- The name and propagation outcome seen by the loop at one index. -/
noncomputable def projNC (home : Observer) (st : TickState) (j : Nat) :
    Option (String × ComputeResult) :=
  (st.sats.get? j).map fun satdata => (satdata.name, satdata.body.compute home)

/-- The warned-already set after processing a sequence of (name, outcome)
observations starting from the set E. -/
def errAux : List String → List (Option (String × ComputeResult)) → List String
  | E, [] => E
  | E, none :: rest => errAux E rest
  | E, some (n, c) :: rest =>
      match c with
      | .runtimeError => if n ∈ E then errAux E rest else errAux (n :: E) rest
      | _ => errAux E rest

/-- The diagnostics printed while processing a sequence of (name, outcome)
observations starting from the warned-already set E. -/
def warnAux : List String → List (Option (String × ComputeResult)) → List String
  | _, [] => []
  | E, none :: rest => warnAux E rest
  | E, some (n, c) :: rest =>
      match c with
      | .runtimeError => if n ∈ E then warnAux E rest else n :: warnAux (n :: E) rest
      | _ => warnAux E rest

/-- The diagnostics printed for one observation. -/
def warnStep (E : List String) : Option (String × ComputeResult) → List String
  | some (n, ComputeResult.runtimeError) => if n ∈ E then [] else [n]
  | _ => []

/-- The warned-already set after one observation. -/
def errStep (E : List String) : Option (String × ComputeResult) → List String
  | some (n, ComputeResult.runtimeError) => if n ∈ E then E else n :: E
  | _ => E

/-- A body whose propagation always raises the generic failure. -/
def bodyRT (nm : String) : Body :=
  { name := nm, writedb := nm ++ ",X", compute := fun _ => ComputeResult.runtimeError }

def homeDemo : Observer := { lat := 0, lon := 0, elevation := 0, date := 0 }

/-! ## Configuration loading: _verify_config_item -/

/-- A value held by the configuration store for one key: ConfigObj yields a
string or a list of strings (comma-separated values). -/
inductive ConfigValue where
  | str (s : String)
  | list (l : List String)
deriving DecidableEq

/-- The exception a Python type constructor call raises on a bad value. -/
inductive ConvErr where
  | valueError
  | typeError
deriving DecidableEq

/-- The configuration object: the main section is present or absent (an
absent section raises KeyError on subscript). -/
structure PyConfig where
  main : Option (List (String × ConfigValue))
deriving DecidableEq

/-- Python int(value): parses a decimal string or raises ValueError; a list
argument raises TypeError, which _verify_config_item does not catch. -/
def pyIntConv : ConfigValue → Except ConvErr Int
  | .str s =>
      match s.toInt? with
      | some n => .ok n
      | none => .error .valueError
  | .list _ => .error .typeError

/-- Python list(value): a string is split into its characters (never an
error), a list passes through. -/
def pyListConv : ConfigValue → Except ConvErr (List String)
  | .str s => .ok (s.data.map fun c => String.mk [c])
  | .list l => .ok l

/-- Python str(value): total (the list rendering is abbreviated here; only
that it never raises matters). -/
def pyStrConv : ConfigValue → Except ConvErr String
  | .str s => .ok s
  | .list l => .ok (String.intercalate ", " l)

/-- SatDataViz._verify_config_item for one key: try item_type(config
subscripted at main and the key); KeyError (missing key) and ValueError
(unconvertible value) fall back to the default, warn, and write the default
back; any other exception propagates. With no main section the write-back
inside the except-branch subscripts config at main again and the KeyError
escapes. The Bool of the result records whether the fallback diagnostic was
printed; encode is the stored form of the written-back default. -/
def verify_config_item {α : Type} (cfg : PyConfig) (default : α) (item_name : String)
    (item_type : ConfigValue → Except ConvErr α) (encode : α → ConfigValue) :
    Except PyErr (α × Bool × PyConfig) :=
  match cfg.main with
  | none => .error .keyError
  | some m =>
      match m.lookup item_name with
      | none => .ok (default, true, ⟨some ((item_name, encode default) :: m)⟩)
      | some v =>
          match item_type v with
          | .ok rval => .ok (rval, false, cfg)
          | .error .valueError => .ok (default, true, ⟨some ((item_name, encode default) :: m)⟩)
          | .error .typeError => .error .typeError

/-! ## Fetch with cache fallback: readTLEfile and the source loop -/

/-- Lines and byte size of one cached file. -/
structure FileData where
  lines : List String
  size : Int
deriving DecidableEq

/-- The cache directory as a map from path to file content. -/
abbrev FS := List (String × FileData)

/-- The urllib failure modes caught by readTLEfile. -/
inductive NetErr where
  | httpError
  | timeoutError
  | urlError
deriving DecidableEq

/-- A successful probe: the raw ETag header and the Content-Length header,
the latter already numeric (header parsing is outside the claims). -/
structure ProbeInfo where
  etag : String
  contentLength : Int
deriving DecidableEq

/-- The network and archive collaborators for one source URL: the probe
(urlopen plus header reads), the body read, and the member list plus
extracted files of the zip archive at the cached path. -/
structure NetEnv where
  probe : Except NetErr ProbeInfo
  readBody : Except NetErr FileData
  zipNamelist : List String
  zipExtracted : List (String × FileData)

def pathJoin (a b : String) : String := a ++ "/" ++ b

/-- Python str.lower (character-wise). -/
def pyLower (s : String) : String := String.mk (s.data.map Char.toLower)

/-- Python str.endswith. -/
def pyEndsWith (s suffix : String) : Bool := suffix.data.isSuffixOf s.data

/-- readTLEfile: probe the source URL, each caught urllib failure setting
fallback mode; fallback with no cached file skips the source (returns none);
fallback, or a matching stored etag and size, reads the cached file;
anything else downloads, overwrites the cache and records the new etag and
size on the descriptor (a failed body read leaves the name data unbound, a
NameError at the write); a cached .zip is expanded and its first member
read; the lines of the final file are returned. -/
def readTLEfile (env : NetEnv) (fs : FS) (data_dir : String) (source : Source) :
    Except PyErr (Option (List String) × Source × FS) := do
  let source_file := pathJoin data_dir (sanitize_filename source.file)
  let probeInfo : Option (String × Int) ←
    match env.probe with
    | .ok pr => do
        let new_etag ← dequote pr.etag
        pure (some (new_etag, pr.contentLength))
    | .error _ => pure none
  let cached := fs.lookup source_file
  let curr_size : Int :=
    match cached with
    | some fd => fd.size
    | none => 0
  if cached.isNone && probeInfo.isNone then
    return (none, source, fs)
  let useExisting : Bool :=
    match probeInfo with
    | none => true
    | some (new_etag, new_size) => source.etag == new_etag && curr_size == new_size
  let (source, fs) ←
    if useExisting then
      pure (source, fs)
    else
      match env.readBody with
      | .ok data =>
          let source :=
            match probeInfo with
            | some (new_etag, new_size) => { source with etag := new_etag, size := new_size }
            | none => source
          pure (source, (source_file, data) :: fs)
      | .error _ => throw PyErr.nameError
  let (source_file, fs) ←
    if pyEndsWith (pyLower source_file) ".zip" then
      match fs.lookup source_file with
      | none => throw PyErr.fileNotFound
      | some _ => do
          let fs := env.zipExtracted ++ fs
          let first ← pyIndex env.zipNamelist 0
          pure (pathJoin data_dir (sanitize_filename first), fs)
    else pure (source_file, fs)
  match fs.lookup source_file with
  | none => throw PyErr.fileNotFound
  | some fd => return (some fd.lines, source, fs)

/-- One iteration of the source loop of process_tle_data; the environment is
keyed by the source URL. An empty or absent content list contributes
nothing (Python truthiness of temp_content). -/
def processSource (readtle : String → String → String → Option Body)
    (envOf : String → NetEnv) (data_dir : String)
    (acc : FS × CatState) (source : Source) : Except PyErr (FS × CatState) := do
  let (res, _source2, fs) ← readTLEfile (envOf source.url) acc.1 data_dir source
  match res with
  | some temp_content =>
      if temp_content.isEmpty then
        pure (fs, acc.2)
      else do
        let st ← processContent readtle source temp_content acc.2
        pure (fs, st)
  | none => pure (fs, acc.2)

/-- process_tle_data over the configured sources, threading the cache
directory and the catalog state. -/
def process_tle_data (readtle : String → String → String → Option Body)
    (envOf : String → NetEnv) (data_dir : String) (fs : FS) (sources : List Source) :
    Except PyErr (FS × CatState) :=
  sources.foldlM (processSource readtle envOf data_dir) (fs, catInit)

def envDemo : NetEnv :=
  { probe := .error .urlError, readBody := .error .urlError,
    zipNamelist := [], zipExtracted := [] }

def sourceCached : Source :=
  { section_num := "1", name := "CelesTrak", file := "stations.txt",
    url := "http://celestrak/stations", color := "#FF0000", etag := "W1", size := 7 }

/-! ## Interaction handlers: onpick and onclick -/

/-- The interaction-facing state of plot_sats: savedsats, the plotted and
picked lists as indices (the Python lists hold references to the same
dictionaries, and distinct records are distinct objects), the rate-limit
clock, the identity of the last pick mouse event, the update lock, and a
ghost flag set by any picked or tracked mutation performed while the lock is
not held. -/
structure VizState where
  sats : List SatData
  plotted_sats : List Nat
  picked_sats : List Nat
  curr_time : ℚ
  last_picked : Option Nat
  locked : Bool
  badMutation : Bool

/-- self.click_wait_s, the rate-limit window in seconds. -/
def click_wait_s : ℚ := 1 / 10

/-- Write one record (a satdata dictionary mutation), recording whether the
lock was held. -/
def updateSat (s : VizState) (j : Nat) (sat : SatData) : VizState :=
  { s with sats := s.sats.set j sat, badMutation := s.badMutation || !s.locked }

/-- Replace the tracked list (append, remove or clear), recording whether
the lock was held. -/
def setPickedList (s : VizState) (l : List Nat) : VizState :=
  { s with picked_sats := l, badMutation := s.badMutation || !s.locked }

/-- A pick event: the underlying mouse event identity and the plot indices. -/
structure PickEvent where
  mouse : Nat
  ind : List Nat

/-- A button press event: the mouse event identity and the button number. -/
structure ClickEvent where
  mouse : Nat
  button : Nat

/-- The toggle loop of onpick over event.ind: subscript plotted_sats at the
plot index (out of range raises IndexError mid-loop), then flip the picked
flag and maintain picked_sats; list remove takes out the first occurrence
and is guarded by a membership test. A dangling plotted index is mapped to
IndexError too: in Python the list holds the reference itself, which always
resolves. -/
def onpickLoop : VizState → List Nat → VizState × Option PyErr
  | s, [] => (s, none)
  | s, plot_idx :: rest =>
      match s.plotted_sats.get? plot_idx with
      | none => (s, some PyErr.indexError)
      | some j =>
          match s.sats.get? j with
          | none => (s, some PyErr.indexError)
          | some satdata =>
              if satdata.picked then
                let s1 := updateSat s j { satdata with picked := false }
                let s2 := if j ∈ s1.picked_sats then
                    setPickedList s1 (s1.picked_sats.erase j) else s1
                onpickLoop s2 rest
              else
                let s1 := updateSat s j { satdata with picked := true }
                let s2 := setPickedList s1 (s1.picked_sats ++ [j])
                onpickLoop s2 rest

/-- onpick: record the mouse event, rate-limit, take the lock, toggle each
picked plot index, release; an exception inside the loop escapes with the
lock still held, since the handler has no try or finally. -/
def onpick (s : VizState) (now : ℚ) (event : PickEvent) : VizState × Option PyErr :=
  let s := { s with last_picked := some event.mouse }
  if now - s.curr_time < click_wait_s then (s, none)
  else
    let s := { s with curr_time := now }
    let s := { s with locked := true }
    match onpickLoop s event.ind with
    | (s2, none) => ({ s2 with locked := false }, none)
    | (s2, some e) => (s2, some e)

/-- The clearing loop of onclick over a copy of picked_sats: set every
picked flag to False. -/
def clearPicked : VizState → List Nat → VizState
  | s, [] => s
  | s, j :: rest =>
      match s.sats.get? j with
      | some satdata => clearPicked (updateSat s j { satdata with picked := false }) rest
      | none => clearPicked s rest

/-- onclick: rate-limit, take the lock; when the event is not the mouse
event of the last pick and the secondary button was pressed, clear every
picked flag and empty the tracked list; release. -/
def onclick (s : VizState) (now : ℚ) (event : ClickEvent) : VizState × Option PyErr :=
  if now - s.curr_time < click_wait_s then (s, none)
  else
    let s := { s with curr_time := now }
    let s := { s with locked := true }
    let s :=
      if s.last_picked = some event.mouse then s
      else if event.button = 3 then
        let s2 := clearPicked s s.picked_sats
        setPickedList s2 []
      else s
    ({ s with locked := false }, none)

def vizEmpty : VizState :=
  { sats := [], plotted_sats := [], picked_sats := [], curr_time := 0,
    last_picked := none, locked := false, badMutation := false }

/-! ## Toggle semantics of onpick (rate limit and tracked list) -/

/-- Invariant tying the picked flags to the tracked list: picked_sats has no
duplicates, references valid records, and holds exactly the indices of the
records whose picked flag is set. plot_sats establishes it (both start
empty) and the handlers preserve it. -/
def PickedInv (s : VizState) : Prop :=
  s.picked_sats.Nodup ∧
  (∀ j ∈ s.picked_sats, j < s.sats.length) ∧
  (∀ j satdata, s.sats.get? j = some satdata → (satdata.picked = true ↔ j ∈ s.picked_sats))

/-- The state after one toggle-off iteration of the pick loop. -/
def pickOff (s : VizState) (j : Nat) (satdata : SatData) : VizState :=
  setPickedList (updateSat s j { satdata with picked := false })
    ((updateSat s j { satdata with picked := false }).picked_sats.erase j)

/-- The state after one toggle-on iteration of the pick loop. -/
def pickOn (s : VizState) (j : Nat) (satdata : SatData) : VizState :=
  setPickedList (updateSat s j { satdata with picked := true })
    ((updateSat s j { satdata with picked := true }).picked_sats ++ [j])

/-- A record whose propagation is always out of range (inert for the
handlers). -/
def bodyQuiet : Body :=
  { name := "SAT", writedb := "SAT,X", compute := fun _ => ComputeResult.valueError }

def satQuiet : SatData := mkNewSat bodyQuiet "11111" "98067A" "1" "Demo" "#FF0000"

def vizDemo : VizState :=
  { sats := [satQuiet], plotted_sats := [0], picked_sats := [], curr_time := 0,
    last_picked := none, locked := false, badMutation := false }

/-! ## Lemmas and claim theorems -/

lemma dropWhile_head?_false {p : Char → Bool} :
    ∀ (l : List Char) (c : Char), (l.dropWhile p).head? = some c → p c = false := by
  intro l
  induction l with
  | nil => simp
  | cons a as ih =>
      intro c hc
      by_cases ha : p a
      · rw [List.dropWhile_cons_of_pos ha] at hc
        exact ih c hc
      · rw [List.dropWhile_cons_of_neg ha] at hc
        simp only [List.head?_cons, Option.some_inj] at hc
        subst hc
        simpa using ha

lemma dropWhile_head_false {p : Char → Bool} :
    ∀ (l : List Char) (h : l.dropWhile p ≠ []), p ((l.dropWhile p).head h) = false := by
  intro l h
  exact dropWhile_head?_false l _ (List.head?_eq_head h)

lemma pyRstrip_subset (s : String) : ∀ c ∈ (pyRstrip s).data, c ∈ s.data := by
  intro c hc
  unfold pyRstrip at hc
  simp only [List.mem_reverse] at hc
  have h1 : c ∈ s.data.reverse := (s.data.reverse.dropWhile_sublist _).subset hc
  simpa using h1

lemma pyRstrip_no_trailing (s : String) :
    ∀ (h : (pyRstrip s).data ≠ []), (((pyRstrip s).data.getLast h).isWhitespace) = false := by
  intro h
  unfold pyRstrip at h ⊢
  have hne : s.data.reverse.dropWhile Char.isWhitespace ≠ [] := by
    intro hnil
    apply h
    simp [hnil]
  rw [List.getLast_reverse]
  exact dropWhile_head_false _ _

/-- C9: sanitize_filename returns only alphanumeric or whitelisted characters
with trailing whitespace stripped; in particular neither path separator, the
slash or the backslash, survives, so a joined cache path has no separator
coming from the configured file name. -/
theorem sanitize_filename_safe (name : String) :
    (∀ c ∈ (sanitize_filename name).data, pyIsAlnum c = true ∨ c ∈ okChars) ∧
    '/' ∉ (sanitize_filename name).data ∧
    '\\' ∉ (sanitize_filename name).data ∧
    ∀ (h : (sanitize_filename name).data ≠ []),
      ((sanitize_filename name).data.getLast h).isWhitespace = false := by
  have hmem : ∀ c ∈ (sanitize_filename name).data, pyIsAlnum c = true ∨ c ∈ okChars := by
    intro c hc
    have h1 := pyRstrip_subset _ c hc
    simp only [List.mem_filter] at h1
    have := h1.2
    simp only [Bool.or_eq_true, decide_eq_true_eq] at this
    rcases this with h | h
    · exact Or.inl h
    · exact Or.inr h
  refine ⟨hmem, ?_, ?_, pyRstrip_no_trailing _⟩
  · intro hc
    rcases hmem _ hc with h | h
    · simp [pyIsAlnum] at h
    · simp [okChars] at h
  · intro hc
    rcases hmem _ hc with h | h
    · simp [pyIsAlnum] at h
    · simp [okChars] at h

/-- C9 witness: a concrete separator-laden name evaluates to a clean one. -/
theorem sanitize_filename_safe_witness :
    sanitize_filename "../a/b\\c.zip " = "..abc.zip" ∧
    ('/' ∉ (sanitize_filename "../a/b\\c.zip ").data ∧
     '\\' ∉ (sanitize_filename "../a/b\\c.zip ").data) :=
  ⟨by decide, (sanitize_filename_safe "../a/b\\c.zip ").2.1,
    (sanitize_filename_safe "../a/b\\c.zip ").2.2.1⟩

/-- C10: dequote is partial at the public interface: the empty string raises
IndexError, and any nonempty string is returned unchanged unless its first and
last characters are the same quote character, in which case exactly those two
positions are removed. -/
theorem dequote_spec :
    dequote "" = .error .indexError ∧
    ∀ (c : Char) (cs : List Char),
      dequote (String.mk (c :: cs)) =
        .ok (if (c :: cs).getLast (List.cons_ne_nil c cs) = c ∧ isQuoteChar c = true
             then String.mk cs.dropLast
             else String.mk (c :: cs)) := by
  refine ⟨rfl, ?_⟩
  intro c cs
  show dequote (String.mk (c :: cs)) = _
  unfold dequote
  split
  · next heq => simp at heq
  · next c' cs' heq =>
      simp only [String.data] at heq
      cases heq
      split
      · rfl
      · rfl

lemma set_append_last {α : Type} (l : List α) (a b : α) :
    (l ++ [a]).set l.length b = l ++ [b] := by
  induction l with
  | nil => rfl
  | cons x xs ih => simp [ih]

/-- C1: ingesting two parsed records with the same canonical element data but
different names yields exactly one catalog entry for that identity, at the
index where the first was appended, holding the fields of the last record,
whose picked flag is false. -/
theorem catalog_ingest_last_wins
    (st : CatState) (b1 b2 : Body) (n1 d1 sn1 sl1 c1 n2 d2 sn2 sl2 c2 dp : String)
    (h1 : satDatapart (mkNewSat b1 n1 d1 sn1 sl1 c1) = some dp)
    (h2 : satDatapart (mkNewSat b2 n2 d2 sn2 sl2 c2) = some dp)
    (hname : b1.name ≠ b2.name)
    (hfresh : st.bodies_dedup.lookup dp = none)
    (hnone : ∀ satdata ∈ st.savedsats, satDatapart satdata ≠ some dp) :
    (ingestSat (ingestSat st (mkNewSat b1 n1 d1 sn1 sl1 c1) dp)
        (mkNewSat b2 n2 d2 sn2 sl2 c2) dp).savedsats =
      st.savedsats ++ [mkNewSat b2 n2 d2 sn2 sl2 c2] ∧
    (ingestSat (ingestSat st (mkNewSat b1 n1 d1 sn1 sl1 c1) dp)
        (mkNewSat b2 n2 d2 sn2 sl2 c2) dp).savedsats.get? st.savedsats.length =
      some (mkNewSat b2 n2 d2 sn2 sl2 c2) ∧
    (mkNewSat b2 n2 d2 sn2 sl2 c2).picked = false ∧
    ((ingestSat (ingestSat st (mkNewSat b1 n1 d1 sn1 sl1 c1) dp)
        (mkNewSat b2 n2 d2 sn2 sl2 c2) dp).savedsats.filter
      fun satdata => satDatapart satdata == some dp).length = 1 := by
  have hstep : (ingestSat (ingestSat st (mkNewSat b1 n1 d1 sn1 sl1 c1) dp)
      (mkNewSat b2 n2 d2 sn2 sl2 c2) dp).savedsats =
      st.savedsats ++ [mkNewSat b2 n2 d2 sn2 sl2 c2] := by
    unfold ingestSat
    rw [hfresh]
    simp only [List.lookup, beq_self_eq_true, if_pos]
    exact set_append_last _ _ _
  refine ⟨hstep, ?_, rfl, ?_⟩
  · rw [hstep, List.get?_eq_getElem?, List.getElem?_concat_length]
  · rw [hstep, List.filter_append]
    have hleft : st.savedsats.filter (fun satdata => satDatapart satdata == some dp) = [] := by
      rw [List.filter_eq_nil_iff]
      intro a ha
      simpa using hnone a ha
    rw [hleft]
    simp [h2]

/-- C1 witness: two concrete records with identical element data and distinct
name lines collapse to a single entry holding the second record. -/
theorem catalog_ingest_last_wins_witness :
    (ingestSat (ingestSat catInit
        (mkNewSat ⟨"SAT A", "SAT A,E1 E2 E3", fun _ => ComputeResult.valueError⟩
          "11111" "98067A" "1" "Demo" "#FF0000") "E1 E2 E3")
        (mkNewSat ⟨"SAT B", "SAT B,E1 E2 E3", fun _ => ComputeResult.valueError⟩
          "11111" "98067A" "2" "Demo2" "#00FF00") "E1 E2 E3").savedsats =
      [mkNewSat ⟨"SAT B", "SAT B,E1 E2 E3", fun _ => ComputeResult.valueError⟩
          "11111" "98067A" "2" "Demo2" "#00FF00"] ∧
    (mkNewSat ⟨"SAT B", "SAT B,E1 E2 E3", fun _ => ComputeResult.valueError⟩
          "11111" "98067A" "2" "Demo2" "#00FF00").picked = false := by
  have h := catalog_ingest_last_wins catInit
    ⟨"SAT A", "SAT A,E1 E2 E3", fun _ => ComputeResult.valueError⟩
    ⟨"SAT B", "SAT B,E1 E2 E3", fun _ => ComputeResult.valueError⟩
    "11111" "98067A" "1" "Demo" "#FF0000" "11111" "98067A" "2" "Demo2" "#00FF00"
    "E1 E2 E3" rfl rfl (by simp) rfl (by simp [catInit])
  exact ⟨h.1, h.2.2.1⟩

/-- C2: evidence for the off-by-one in the triplet loop. With two input lines
(zero complete triplets and two leftover lines, N congruent to 2 modulo 3) the
while condition 3 * 0 + 2 <= 2 still admits the iteration, the read of index
2 raises IndexError, and nothing is ingested silently as the specification
asks; with seven well-formed lines (N congruent to 1) the loop parses exactly
two records and ignores the leftover line. -/
theorem tle_triplet_loop_index_error :
    processContent readtleDemo sourceDemo ["NAME ONE", "1 11111U 98067A"] catInit =
      .error .indexError ∧
    (processContent readtleDemo sourceDemo
        ["SAT ONE", "1 11111U 98067A", "2 11111", "SAT TWO", "1 22222U 99025B", "2 22222",
         "LEFTOVER"] catInit).map (fun st => st.parsedCount) = .ok 2 := by
  constructor
  · rfl
  · rfl

lemma get?_set_self {α : Type} :
    ∀ (l : List α) (j : Nat) (a : α), j < l.length → (l.set j a).get? j = some a := by
  intro l
  induction l with
  | nil => intro j a h; simp at h
  | cons x xs ih =>
      intro j a h
      cases j with
      | zero => rfl
      | succ n => exact ih n a (Nat.lt_of_succ_lt_succ h)

lemma get?_set_ne {α : Type} :
    ∀ (l : List α) (i j : Nat) (a : α), i ≠ j → (l.set i a).get? j = l.get? j := by
  intro l
  induction l with
  | nil => intro i j a _; rfl
  | cons x xs ih =>
      intro i j a h
      cases i with
      | zero =>
          cases j with
          | zero => exact absurd rfl h
          | succ m => rfl
      | succ n =>
          cases j with
          | zero => rfl
          | succ m => exact ih n m a (fun hh => h (by rw [hh]))

lemma get?_some_lt {α : Type} {l : List α} {j : Nat} {a : α} (h : l.get? j = some a) :
    j < l.length := by
  by_contra hge
  rw [List.get?_eq_none.mpr (by omega)] at h
  exact Option.noConfusion h

lemma tickOK_set (home : Observer) (sats : List SatData) (plotted : List Nat)
    (radius theta : List ℝ) (j : Nat) (satdata : SatData) (p : Option Nat)
    (hj : sats.get? j = some satdata)
    (h : tickOK home sats plotted radius theta) :
    tickOK home (sats.set j { satdata with plot_idx := p }) plotted radius theta := by
  obtain ⟨hr, ht, hk⟩ := h
  refine ⟨hr, ht, ?_⟩
  intro k hklt
  obtain ⟨j', sd, alt, az, h1, h2, h3, h4, h5, h6⟩ := hk k hklt
  by_cases hjj : j' = j
  · subst hjj
    have hsd : satdata = sd := by rw [hj] at h2; exact Option.some.inj h2
    subst hsd
    exact ⟨j', { satdata with plot_idx := p }, alt, az, h1,
      get?_set_self _ _ _ (get?_some_lt hj), h3, h4, h5, h6⟩
  · exact ⟨j', sd, alt, az, h1, by rw [get?_set_ne _ _ _ _ (fun hh => hjj hh.symm)]; exact h2,
      h3, h4, h5, h6⟩

lemma tickOK_append (home : Observer) (sats : List SatData) (plotted : List Nat)
    (radius theta : List ℝ) (j : Nat) (satdata : SatData) (p : Option Nat)
    (alt az : ℝ)
    (hj : sats.get? j = some satdata)
    (hc : satdata.body.compute home = ComputeResult.ok alt az)
    (halt : degrees alt > 0)
    (h : tickOK home sats plotted radius theta) :
    tickOK home (sats.set j { satdata with plot_idx := p }) (plotted ++ [j])
      (radius ++ [Real.cos alt]) (theta ++ [az]) := by
  obtain ⟨hset1, hset2, hset3⟩ := tickOK_set home sats plotted radius theta j satdata p hj h
  refine ⟨by simp [hset1], by simp [hset2], ?_⟩
  intro k hklt
  rw [List.length_append, List.length_singleton] at hklt
  by_cases hkold : k < plotted.length
  · obtain ⟨j', sd, alt', az', h1, h2, h3, h4, h5, h6⟩ := hset3 k hkold
    refine ⟨j', sd, alt', az', ?_, h2, h3, h4, ?_, ?_⟩
    · rw [List.get?_eq_getElem?, List.getElem?_append_left hkold,
        ← List.get?_eq_getElem?]; exact h1
    · rw [List.get?_eq_getElem?, List.getElem?_append_left (by omega : k < radius.length),
        ← List.get?_eq_getElem?]; exact h5
    · rw [List.get?_eq_getElem?, List.getElem?_append_left (by omega : k < theta.length),
        ← List.get?_eq_getElem?]; exact h6
  · have hk : k = plotted.length := by omega
    subst hk
    refine ⟨j, { satdata with plot_idx := p }, alt, az, ?_,
      get?_set_self _ _ _ (get?_some_lt hj), hc, halt, ?_, ?_⟩
    · rw [List.get?_eq_getElem?, List.getElem?_concat_length]
    · have : plotted.length = radius.length := hset1.symm
      rw [this, List.get?_eq_getElem?, List.getElem?_concat_length]
    · have : plotted.length = theta.length := hset2.symm
      rw [this, List.get?_eq_getElem?, List.getElem?_concat_length]

lemma tickStep_inv (home : Observer) (st : TickState) (j : Nat)
    (h : TickInv home st) : TickInv home (tickStep home st j) := by
  unfold TickInv at h ⊢
  unfold tickStep
  cases hj : st.sats.get? j with
  | none => exact h
  | some satdata =>
      dsimp only
      cases hc : satdata.body.compute home with
      | valueError =>
          exact tickOK_set home st.sats st.plotted_sats st.radius_plot st.theta_plot
            j satdata none hj h
      | runtimeError =>
          dsimp only
          split
          · exact tickOK_set home st.sats st.plotted_sats st.radius_plot st.theta_plot
              j satdata none hj h
          · exact tickOK_set home st.sats st.plotted_sats st.radius_plot st.theta_plot
              j satdata none hj h
      | ok alt az =>
          dsimp only
          split
          · next halt =>
              dsimp only
              rw [List.set_set]
              exact tickOK_append home st.sats st.plotted_sats st.radius_plot st.theta_plot
                j satdata (some st.plot_idx) alt az hj hc halt h
          · exact tickOK_set home st.sats st.plotted_sats st.radius_plot st.theta_plot
              j satdata none hj h

lemma tickLoop_inv (home : Observer) :
    ∀ (l : List Nat) (st : TickState), TickInv home st → TickInv home (tickLoop home st l) := by
  intro l
  induction l with
  | nil => intro st h; exact h
  | cons j rest ih => intro st h; exact ih (tickStep home st j) (tickStep_inv home st j h)

/-- C3: the frame produced by one visibility tick contains only records whose
propagation succeeded with altitude strictly above zero degrees, each carrying
plot radius cos(altitude) and theta azimuth; a record at altitude pi/2 (ninety
degrees) gets plot radius zero. -/
theorem tick_above_horizon (home : Observer) (sats : List SatData) (errored : List String) :
    (tick home sats errored).radius_plot.length = (tick home sats errored).plotted_sats.length ∧
    (tick home sats errored).theta_plot.length = (tick home sats errored).plotted_sats.length ∧
    ∀ k, k < (tick home sats errored).plotted_sats.length →
      ∃ j satdata alt az,
        (tick home sats errored).plotted_sats.get? k = some j ∧
        (tick home sats errored).sats.get? j = some satdata ∧
        satdata.body.compute home = ComputeResult.ok alt az ∧
        degrees alt > 0 ∧
        (tick home sats errored).radius_plot.get? k = some (Real.cos alt) ∧
        (tick home sats errored).theta_plot.get? k = some az ∧
        (alt = Real.pi / 2 → (tick home sats errored).radius_plot.get? k = some 0) := by
  have hinit : TickInv home (tickInit sats errored) := by
    refine ⟨rfl, rfl, ?_⟩
    intro k hk
    simp [tickInit] at hk
  obtain ⟨hr, ht, hk⟩ := tickLoop_inv home (List.range sats.length) (tickInit sats errored) hinit
  refine ⟨hr, ht, ?_⟩
  intro k hklt
  obtain ⟨j, satdata, alt, az, h1, h2, h3, h4, h5, h6⟩ := hk k hklt
  refine ⟨j, satdata, alt, az, h1, h2, h3, h4, h5, h6, ?_⟩
  intro hpi
  subst hpi
  rw [Real.cos_pi_div_two] at h5
  exact h5

lemma projNC_tickStep (home : Observer) (st : TickState) (j j' : Nat) :
    projNC home (tickStep home st j) j' = projNC home st j' := by
  have hname : ∀ (satdata : SatData) (p : Option Nat),
      st.sats.get? j = some satdata →
      ((st.sats.set j { satdata with plot_idx := p }).get? j').map
        (fun sd => (sd.name, sd.body.compute home)) =
      (st.sats.get? j').map (fun sd => (sd.name, sd.body.compute home)) := by
    intro satdata p hj
    by_cases hjj : j = j'
    · subst hjj
      rw [get?_set_self _ _ _ (get?_some_lt hj), hj]
      rfl
    · rw [get?_set_ne _ _ _ _ hjj]
  unfold projNC tickStep
  cases hj : st.sats.get? j with
  | none => rfl
  | some satdata =>
      dsimp only
      cases hc : satdata.body.compute home with
      | valueError =>
          simp only [hc]
          exact hname satdata none hj
      | runtimeError =>
          simp only [hc]
          split
          · exact hname satdata none hj
          · exact hname satdata none hj
      | ok alt az =>
          simp only [hc]
          split
          · rw [List.set_set]
            exact hname satdata (some st.plot_idx) hj
          · exact hname satdata none hj

lemma tickStep_warn (home : Observer) (st : TickState) (j : Nat) :
    (tickStep home st j).warnings = st.warnings ++ warnStep st.errored_sats (projNC home st j) ∧
    (tickStep home st j).errored_sats = errStep st.errored_sats (projNC home st j) := by
  unfold tickStep projNC
  cases hj : st.sats.get? j with
  | none => simp [warnStep, errStep]
  | some satdata =>
      dsimp only
      cases hc : satdata.body.compute home with
      | valueError => simp [hc, warnStep, errStep]
      | runtimeError =>
          by_cases hm : satdata.name ∈ st.errored_sats
      -- membership decides both the step and the auxiliary functions
          · simp [hc, hm, warnStep, errStep]
          · simp [hc, hm, warnStep, errStep]
      | ok alt az =>
          simp only [hc]
          split
          · simp [hc, warnStep, errStep]
          · simp [hc, warnStep, errStep]

lemma warnAux_cons (E : List String) (x : Option (String × ComputeResult))
    (xs : List (Option (String × ComputeResult))) :
    warnAux E (x :: xs) = warnStep E x ++ warnAux (errStep E x) xs := by
  cases x with
  | none => simp [warnAux, warnStep, errStep]
  | some p =>
      obtain ⟨n, c⟩ := p
      cases c with
      | ok alt az => simp [warnAux, warnStep, errStep]
      | valueError => simp [warnAux, warnStep, errStep]
      | runtimeError =>
          by_cases hm : n ∈ E
          · simp [warnAux, warnStep, errStep, hm]
          · simp [warnAux, warnStep, errStep, hm]

lemma errAux_cons (E : List String) (x : Option (String × ComputeResult))
    (xs : List (Option (String × ComputeResult))) :
    errAux E (x :: xs) = errAux (errStep E x) xs := by
  cases x with
  | none => simp [errAux, errStep]
  | some p =>
      obtain ⟨n, c⟩ := p
      cases c with
      | ok alt az => simp [errAux, errStep]
      | valueError => simp [errAux, errStep]
      | runtimeError =>
          by_cases hm : n ∈ E
          · simp [errAux, errStep, hm]
          · simp [errAux, errStep, hm]

lemma tickLoop_warn (home : Observer) :
    ∀ (l : List Nat) (st : TickState),
      (tickLoop home st l).warnings =
        st.warnings ++ warnAux st.errored_sats (l.map (projNC home st)) ∧
      (tickLoop home st l).errored_sats =
        errAux st.errored_sats (l.map (projNC home st)) := by
  intro l
  induction l with
  | nil => intro st; simp [tickLoop, warnAux, errAux]
  | cons j rest ih =>
      intro st
      obtain ⟨ihw, ihe⟩ := ih (tickStep home st j)
      obtain ⟨hw1, he1⟩ := tickStep_warn home st j
      have hmap : rest.map (projNC home (tickStep home st j)) = rest.map (projNC home st) :=
        List.map_congr_left fun j' _ => projNC_tickStep home st j j'
      constructor
      · show (tickLoop home (tickStep home st j) rest).warnings = _
        rw [ihw, hmap, hw1, he1, List.map_cons, warnAux_cons, List.append_assoc]
      · show (tickLoop home (tickStep home st j) rest).errored_sats = _
        rw [ihe, hmap, he1, List.map_cons, errAux_cons]

lemma mem_errAux (n : String) :
    ∀ (xs : List (Option (String × ComputeResult))) (E : List String),
      n ∈ errAux E xs ↔ n ∈ E ∨ some (n, ComputeResult.runtimeError) ∈ xs := by
  intro xs
  induction xs with
  | nil => intro E; simp [errAux]
  | cons x rest ih =>
      intro E
      cases x with
      | none => simp [errAux, ih]
      | some p =>
          obtain ⟨m, c⟩ := p
          cases c with
          | ok alt az => simp [errAux, ih]
          | valueError => simp [errAux, ih]
          | runtimeError =>
              by_cases hm : m ∈ E
              · rw [show errAux E (some (m, ComputeResult.runtimeError) :: rest) =
                      errAux E rest from by simp [errAux, hm]]
                rw [ih]
                simp only [List.mem_cons, Option.some.injEq, Prod.mk.injEq, and_true]
                constructor
                · rintro (h | h)
                  · exact Or.inl h
                  · exact Or.inr (Or.inr h)
                · rintro (h | h | h)
                  · exact Or.inl h
                  · exact Or.inl (h.symm ▸ hm)
                  · exact Or.inr h
              · rw [show errAux E (some (m, ComputeResult.runtimeError) :: rest) =
                      errAux (m :: E) rest from by simp [errAux, hm]]
                rw [ih]
                simp only [List.mem_cons, Option.some.injEq, Prod.mk.injEq, and_true]
                constructor
                · rintro (h | h)
                  · rcases h with h | h
                    · exact Or.inr (Or.inl h)
                    · exact Or.inl h
                  · exact Or.inr (Or.inr h)
                · rintro (h | h | h)
                  · exact Or.inl (Or.inr h)
                  · exact Or.inl (Or.inl h)
                  · exact Or.inr h

lemma mem_warnAux (n : String) :
    ∀ (xs : List (Option (String × ComputeResult))) (E : List String),
      n ∈ warnAux E xs ↔ n ∉ E ∧ some (n, ComputeResult.runtimeError) ∈ xs := by
  intro xs
  induction xs with
  | nil => intro E; simp [warnAux]
  | cons x rest ih =>
      intro E
      cases x with
      | none => simp [warnAux, ih]
      | some p =>
          obtain ⟨m, c⟩ := p
          cases c with
          | ok alt az => simp [warnAux, ih]
          | valueError => simp [warnAux, ih]
          | runtimeError =>
              by_cases hm : m ∈ E
              · rw [show warnAux E (some (m, ComputeResult.runtimeError) :: rest) =
                      warnAux E rest from by simp [warnAux, hm]]
                rw [ih]
                simp only [List.mem_cons, Option.some.injEq, Prod.mk.injEq, and_true]
                constructor
                · rintro ⟨h1, h2⟩
                  exact ⟨h1, Or.inr h2⟩
                · rintro ⟨h1, h | h⟩
                  · exact absurd (h.symm ▸ hm) h1
                  · exact ⟨h1, h⟩
              · rw [show warnAux E (some (m, ComputeResult.runtimeError) :: rest) =
                      m :: warnAux (m :: E) rest from by simp [warnAux, hm]]
                simp only [List.mem_cons, ih, Option.some.injEq, Prod.mk.injEq, and_true]
                constructor
                · rintro (h | ⟨h1, h2⟩)
                  · subst h
                    exact ⟨hm, Or.inl rfl⟩
                  · exact ⟨fun hh => h1 (Or.inr hh), Or.inr h2⟩
                · rintro ⟨h1, h | h⟩
                  · exact Or.inl h
                  · by_cases hnm : n = m
                    · exact Or.inl hnm
                    · exact Or.inr ⟨fun hh => hh.elim hnm h1, h⟩

lemma mem_proj_range (home : Observer) (sats : List SatData) (E : List String) (n : String) :
    some (n, ComputeResult.runtimeError) ∈
        (List.range sats.length).map (projNC home (tickInit sats E)) ↔
      ∃ satdata ∈ sats, satdata.name = n ∧
        satdata.body.compute home = ComputeResult.runtimeError := by
  simp only [List.mem_map, List.mem_range]
  constructor
  · rintro ⟨j, hjlt, hproj⟩
    unfold projNC tickInit at hproj
    cases hg : (sats.get? j) with
    | none => rw [hg] at hproj; exact Option.noConfusion hproj
    | some sd =>
        rw [hg] at hproj
        simp only [Option.map_some', Option.some.injEq, Prod.mk.injEq] at hproj
        exact ⟨sd, List.get?_mem hg, hproj.1, hproj.2⟩
  · rintro ⟨sd, hmem, hname, hcomp⟩
    obtain ⟨j, hj⟩ := List.mem_iff_get?.mp hmem
    refine ⟨j, get?_some_lt hj, ?_⟩
    unfold projNC tickInit
    rw [hj]
    simp [hname, hcomp]

lemma tickInit_warnings (sats : List SatData) (E : List String) :
    (tickInit sats E).warnings = [] := rfl

lemma tickInit_errored (sats : List SatData) (E : List String) :
    (tickInit sats E).errored_sats = E := rfl

lemma tick_warnings_iff (home : Observer) (sats : List SatData) (E : List String) (n : String) :
    n ∈ (tick home sats E).warnings ↔
      n ∉ E ∧ ∃ satdata ∈ sats, satdata.name = n ∧
        satdata.body.compute home = ComputeResult.runtimeError := by
  obtain ⟨hw, _⟩ := tickLoop_warn home (List.range sats.length) (tickInit sats E)
  rw [tick, hw, tickInit_warnings, tickInit_errored, List.nil_append, mem_warnAux,
    mem_proj_range]

lemma tick_warnings_subset_errored (home : Observer) (sats : List SatData) (E : List String)
    (n : String) (h : n ∈ (tick home sats E).warnings) :
    n ∈ (tick home sats E).errored_sats := by
  obtain ⟨hw, he⟩ := tickLoop_warn home (List.range sats.length) (tickInit sats E)
  rw [tick, hw, tickInit_warnings, tickInit_errored, List.nil_append] at h
  rw [tick, he, tickInit_errored, mem_errAux]
  exact Or.inr ((mem_warnAux n _ E).mp h).2

/-- C5 (corrected): the diagnostics of one tick pass are exactly the names,
deduplicated by NAME against the warned-already set, of records whose
propagation raised the generic failure; date-out-of-range failures print
nothing; a name warned in one pass is never warned again in the next pass;
and no failed record of either kind enters the frame. -/
theorem tick_warn_once_per_name (home1 home2 : Observer) (sats : List SatData)
    (errored : List String) :
    (∀ n, n ∈ (tick home1 sats errored).warnings ↔
        (n ∉ errored ∧ ∃ satdata ∈ sats, satdata.name = n ∧
          satdata.body.compute home1 = ComputeResult.runtimeError)) ∧
    (∀ n, n ∈ (tick home1 sats errored).warnings →
        n ∉ (tick home2 (tick home1 sats errored).sats
              (tick home1 sats errored).errored_sats).warnings) ∧
    (∀ k j satdata,
        (tick home1 sats errored).plotted_sats.get? k = some j →
        (tick home1 sats errored).sats.get? j = some satdata →
        ∃ alt az, satdata.body.compute home1 = ComputeResult.ok alt az) := by
  refine ⟨fun n => tick_warnings_iff home1 sats errored n, ?_, ?_⟩
  · intro n hn hn2
    have h1 : n ∈ (tick home1 sats errored).errored_sats :=
      tick_warnings_subset_errored home1 sats errored n hn
    have h2 := (tick_warnings_iff home2 (tick home1 sats errored).sats
      (tick home1 sats errored).errored_sats n).mp hn2
    exact h2.1 h1
  · intro k j satdata hp hs
    have hinit : TickInv home1 (tickInit sats errored) := by
      refine ⟨rfl, rfl, ?_⟩
      intro k hk
      simp [tickInit] at hk
    obtain ⟨hr, ht, hk⟩ :=
      tickLoop_inv home1 (List.range sats.length) (tickInit sats errored) hinit
    obtain ⟨j', sd, alt, az, h1, h2, h3, _, _, _⟩ := hk k (get?_some_lt hp)
    have hj : j' = j := Option.some.inj (h1.symm.trans hp)
    subst hj
    have hsd : sd = satdata := Option.some.inj (h2.symm.trans hs)
    subst hsd
    exact ⟨alt, az, h3⟩

/-- C5 counterexample: two DISTINCT records sharing the name ALPHA both fail
with the generic propagation error, yet one tick pass prints exactly one
diagnostic, so the warning for one record suppressed the first warning for
the other (the dedup key is the name, not the record identity). -/
theorem tick_warn_name_collision_counterexample :
    mkNewSat (bodyRT "ALPHA") "11111" "98067A" "1" "Demo" "#FF0000" ≠
      mkNewSat (bodyRT "ALPHA") "22222" "99025B" "1" "Demo" "#FF0000" ∧
    (mkNewSat (bodyRT "ALPHA") "11111" "98067A" "1" "Demo" "#FF0000").body.compute homeDemo =
      ComputeResult.runtimeError ∧
    (mkNewSat (bodyRT "ALPHA") "22222" "99025B" "1" "Demo" "#FF0000").body.compute homeDemo =
      ComputeResult.runtimeError ∧
    (tick homeDemo
        [mkNewSat (bodyRT "ALPHA") "11111" "98067A" "1" "Demo" "#FF0000",
         mkNewSat (bodyRT "ALPHA") "22222" "99025B" "1" "Demo" "#FF0000"] []).warnings =
      ["ALPHA"] := by
  refine ⟨?_, rfl, rfl, ?_⟩
  · intro h
    have := congrArg SatData.number h
    simp [mkNewSat, bodyRT] at this
  · rfl

/-- C8 (corrected, amended): when the main section exists and the type
conversion of the key can only succeed or raise ValueError, loading the key
never raises: a missing key or an unconvertible value is replaced by the
default with a warning, and a convertible value is taken as converted. -/
theorem verify_config_defaults {α : Type} (cfg : PyConfig)
    (m : List (String × ConfigValue)) (default : α) (item_name : String)
    (conv : ConfigValue → Except ConvErr α) (encode : α → ConfigValue)
    (hmain : cfg.main = some m)
    (hconv : ∀ v, conv v ≠ .error .typeError) :
    ∃ rval warned cfg2,
      verify_config_item cfg default item_name conv encode = .ok (rval, warned, cfg2) ∧
      (m.lookup item_name = none → rval = default ∧ warned = true) ∧
      (∀ v, m.lookup item_name = some v → conv v = .error .valueError →
        rval = default ∧ warned = true) ∧
      (∀ v a, m.lookup item_name = some v → conv v = .ok a →
        rval = a ∧ warned = false) := by
  unfold verify_config_item
  rw [hmain]
  dsimp only
  cases hl : m.lookup item_name with
  | none =>
      dsimp only
      refine ⟨default, true, _, rfl, fun _ => ⟨rfl, rfl⟩, ?_, ?_⟩
      · intro v hv; exact Option.noConfusion hv
      · intro v a hv; exact Option.noConfusion hv
  | some v =>
      dsimp only
      cases hc : conv v with
      | ok a =>
          refine ⟨a, false, _, rfl, by simp, ?_, ?_⟩
          · intro v' hv' hcv'
            cases Option.some.inj hv'
            rw [hc] at hcv'
            exact Except.noConfusion hcv'
          · intro v' a' hv' hcv'
            cases Option.some.inj hv'
            rw [hc] at hcv'
            exact ⟨Except.ok.inj hcv', rfl⟩
      | error e =>
          cases e with
          | typeError => exact absurd hc (hconv v)
          | valueError =>
              refine ⟨default, true, _, rfl, by simp, ?_, ?_⟩
              · intro v' hv' _
                exact ⟨rfl, rfl⟩
              · intro v' a' hv' hcv'
                cases Option.some.inj hv'
                rw [hc] at hcv'
                exact Except.noConfusion hcv'

/-- C8 witness: a malformed float-like string for a list key and a missing
key both load without raising, with the default substituted for the missing
key and a warning in both fallback paths. -/
theorem verify_config_defaults_witness :
    ∃ rval warned cfg2,
      verify_config_item (PyConfig.mk (some [("window_size", ConfigValue.str "ab")]))
          ([] : List String) "update_pause_ms" pyListConv ConfigValue.list =
        .ok (rval, warned, cfg2) ∧
      ([("window_size", ConfigValue.str "ab")].lookup "update_pause_ms" = none →
        rval = [] ∧ warned = true) ∧
      (∀ v, [("window_size", ConfigValue.str "ab")].lookup "update_pause_ms" = some v →
        pyListConv v = .error .valueError → rval = [] ∧ warned = true) ∧
      (∀ v a, [("window_size", ConfigValue.str "ab")].lookup "update_pause_ms" = some v →
        pyListConv v = .ok a → rval = a ∧ warned = false) :=
  verify_config_defaults (PyConfig.mk (some [("window_size", ConfigValue.str "ab")]))
    [("window_size", ConfigValue.str "ab")] ([] : List String) "update_pause_ms"
    pyListConv ConfigValue.list rfl
    (by intro v; cases v <;> simp [pyListConv])

/-- C8 counterexample: a list-shaped value under an int key makes
_verify_config_item raise TypeError to the caller (only KeyError and
ValueError are caught), and a malformed scalar under a list key is accepted
as its list of characters instead of being replaced by the default. -/
theorem verify_config_raises_counterexample :
    verify_config_item (PyConfig.mk (some [("secs_per_step", ConfigValue.list ["1", "2"])]))
        (0 : Int) "secs_per_step" pyIntConv (fun n => ConfigValue.str (toString n)) =
      .error .typeError ∧
    verify_config_item (PyConfig.mk (some [("window_size", ConfigValue.str "abc")]))
        (["1700", "1000"] : List String) "window_size" pyListConv ConfigValue.list =
      .ok (["a", "b", "c"], false,
        PyConfig.mk (some [("window_size", ConfigValue.str "abc")])) := by
  constructor
  · rfl
  · rfl

/-- C4: when the probe of a source URL fails, a present cached (plain) file
is returned as-is without raising and with the descriptor etag and size
untouched, while an absent cached file makes exactly this source contribute
nothing: the pipeline over the remaining sources is unchanged. -/
theorem readTLEfile_fallback (env : NetEnv) (fs : FS) (data_dir : String) (source : Source)
    (e : NetErr) (hprobe : env.probe = .error e) :
    (∀ fd, fs.lookup (pathJoin data_dir (sanitize_filename source.file)) = some fd →
      pyEndsWith (pyLower (pathJoin data_dir (sanitize_filename source.file))) ".zip" = false →
      readTLEfile env fs data_dir source = .ok (some fd.lines, source, fs)) ∧
    (fs.lookup (pathJoin data_dir (sanitize_filename source.file)) = none →
      readTLEfile env fs data_dir source = .ok (none, source, fs) ∧
      ∀ (readtle : String → String → String → Option Body)
        (envOf : String → NetEnv) (rest : List Source),
        envOf source.url = env →
        process_tle_data readtle envOf data_dir fs (source :: rest) =
          process_tle_data readtle envOf data_dir fs rest) := by
  constructor
  · intro fd hfd hzip
    simp [readTLEfile, hprobe, hfd, hzip]
    rfl
  · intro hnone
    have hskip : readTLEfile env fs data_dir source = .ok (none, source, fs) := by
      simp [readTLEfile, hprobe, hnone]
      rfl
    refine ⟨hskip, ?_⟩
    intro readtle envOf rest henv
    simp [process_tle_data, processSource, henv, hskip]
    rfl

/-- C4 witness: with an unreachable network and a pre-existing cached file,
the cached lines come back without an exception and the descriptor and cache
are unchanged. -/
theorem readTLEfile_fallback_witness :
    readTLEfile envDemo [("tledata/stations.txt", FileData.mk ["ISS LINE"] 42)]
        "tledata" sourceCached =
      .ok (some ["ISS LINE"], sourceCached,
        [("tledata/stations.txt", FileData.mk ["ISS LINE"] 42)]) :=
  (readTLEfile_fallback envDemo [("tledata/stations.txt", FileData.mk ["ISS LINE"] 42)]
      "tledata" sourceCached NetErr.urlError rfl).1
    (FileData.mk ["ISS LINE"] 42) rfl (by decide)

lemma onpickLoop_locked :
    ∀ (ks : List Nat) (s : VizState),
      s.locked = true →
      (∀ k ∈ ks, ∃ j, s.plotted_sats.get? k = some j ∧ j < s.sats.length) →
      ∃ s2, onpickLoop s ks = (s2, none) ∧ s2.locked = true ∧
        s2.badMutation = s.badMutation := by
  intro ks
  induction ks with
  | nil => intro s hl _; exact ⟨s, rfl, hl, rfl⟩
  | cons k rest ih =>
      intro s hl hks
      obtain ⟨j, hkj, hjlen⟩ := hks k (List.mem_cons_self k rest)
      cases hs : s.sats.get? j with
      | none =>
          rw [List.get?_eq_none] at hs
          omega
      | some satdata =>
          have hstep : ∀ (s1 : VizState), s1.locked = true → s1.badMutation = s.badMutation →
              s1.plotted_sats = s.plotted_sats → s1.sats.length = s.sats.length →
              ∃ s2, onpickLoop s1 rest = (s2, none) ∧ s2.locked = true ∧
                s2.badMutation = s.badMutation := by
            intro s1 h1 h2 h3 h4
            obtain ⟨s2, hh1, hh2, hh3⟩ := ih s1 h1 (by
              intro k2 hk2
              obtain ⟨j2, hj2, hj2len⟩ := hks k2 (List.mem_cons_of_mem _ hk2)
              exact ⟨j2, h3 ▸ hj2, h4 ▸ hj2len⟩)
            exact ⟨s2, hh1, hh2, h2 ▸ hh3⟩
          rw [onpickLoop, hkj]
          dsimp only
          rw [hs]
          dsimp only
          by_cases hp : satdata.picked
          · rw [if_pos hp]
            by_cases hm : j ∈ (updateSat s j { satdata with picked := false }).picked_sats
            · rw [if_pos hm]
              exact hstep _ (by simp [setPickedList, updateSat, hl])
                (by simp [setPickedList, updateSat, hl]) rfl (by simp [setPickedList, updateSat])
            · rw [if_neg hm]
              exact hstep _ (by simp [updateSat, hl]) (by simp [updateSat, hl]) rfl
                (by simp [updateSat])
          · rw [if_neg hp]
            exact hstep _ (by simp [setPickedList, updateSat, hl])
              (by simp [setPickedList, updateSat, hl]) rfl (by simp [setPickedList, updateSat])

lemma clearPicked_locked :
    ∀ (l : List Nat) (s : VizState), s.locked = true →
      (clearPicked s l).locked = true ∧ (clearPicked s l).badMutation = s.badMutation := by
  intro l
  induction l with
  | nil => intro s hl; exact ⟨hl, rfl⟩
  | cons j rest ih =>
      intro s hl
      rw [clearPicked]
      cases s.sats.get? j with
      | none => exact ih s hl
      | some satdata =>
          obtain ⟨h1, h2⟩ := ih (updateSat s j { satdata with picked := false })
            (by simp [updateSat, hl])
          exact ⟨h1, by rw [h2]; simp [updateSat, hl]⟩

lemma setPickedList_clear_bad (s0 : VizState) (l : List Nat) (hl : s0.locked = true)
    (hb : s0.badMutation = false) :
    (setPickedList (clearPicked s0 l) []).badMutation = false := by
  obtain ⟨h1, h2⟩ := clearPicked_locked l s0 hl
  rw [setPickedList]
  dsimp only
  rw [h1, h2, hb]
  rfl

/-- C6 (corrected, amended): when every delivered plot index is within the
current frame, both handlers finish without an exception, never mutate a
picked flag or the tracked list without holding the lock (the ghost flag
stays clear), and release the lock before returning; rate-limited calls do
not touch the lock at all. -/
theorem handlers_lock_discipline (s : VizState) (now : ℚ) (pe : PickEvent) (ce : ClickEvent)
    (hL : s.locked = false) (hB : s.badMutation = false)
    (hidx : ∀ k ∈ pe.ind, ∃ j, s.plotted_sats.get? k = some j ∧ j < s.sats.length) :
    ((onpick s now pe).2 = none ∧ (onpick s now pe).1.locked = false ∧
      (onpick s now pe).1.badMutation = false) ∧
    ((onclick s now ce).2 = none ∧ (onclick s now ce).1.locked = false ∧
      (onclick s now ce).1.badMutation = false) := by
  constructor
  · unfold onpick
    dsimp only
    by_cases ht : now - s.curr_time < click_wait_s
    · rw [if_pos ht]
      exact ⟨rfl, hL, hB⟩
    · rw [if_neg ht]
      obtain ⟨s2, hloop, hlock2, hbad2⟩ := onpickLoop_locked pe.ind
        { s with last_picked := some pe.mouse, curr_time := now, locked := true }
        rfl (by intro k hk; exact hidx k hk)
      rw [hloop]
      exact ⟨rfl, rfl, by rw [hbad2]; exact hB⟩
  · unfold onclick
    by_cases ht : now - s.curr_time < click_wait_s
    · rw [if_pos ht]
      exact ⟨rfl, hL, hB⟩
    · rw [if_neg ht]
      dsimp only
      by_cases hlast : s.last_picked = some ce.mouse
      · rw [if_pos hlast]
        exact ⟨rfl, rfl, hB⟩
      · rw [if_neg hlast]
        by_cases hbtn : ce.button = 3
        · rw [if_pos hbtn]
          exact ⟨rfl, rfl, setPickedList_clear_bad _ _ rfl hB⟩
        · rw [if_neg hbtn]
          exact ⟨rfl, rfl, hB⟩

/-- C6 counterexample: a pick event carrying a plot index with no
corresponding point in the current frame raises IndexError out of the
handler while the lock is still held (acquire and release are not protected
by try or finally), so the handler does propagate an exception holding the
lock. -/
theorem onpick_lock_leak_counterexample :
    (onpick vizEmpty 1 (PickEvent.mk 0 [0])).2 = some PyErr.indexError ∧
    (onpick vizEmpty 1 (PickEvent.mk 0 [0])).1.locked = true := by
  have hcond : ¬((1 : ℚ) - (0 : ℚ) < click_wait_s) := by norm_num [click_wait_s]
  unfold onpick vizEmpty
  dsimp only
  rw [if_neg hcond]
  rw [onpickLoop]
  exact ⟨rfl, rfl⟩

lemma pickOff_fields (s : VizState) (j : Nat) (satdata : SatData) :
    (pickOff s j satdata).sats = s.sats.set j { satdata with picked := false } ∧
    (pickOff s j satdata).picked_sats = s.picked_sats.erase j ∧
    (pickOff s j satdata).plotted_sats = s.plotted_sats ∧
    (pickOff s j satdata).curr_time = s.curr_time ∧
    (pickOff s j satdata).locked = s.locked ∧
    (pickOff s j satdata).last_picked = s.last_picked := by
  simp [pickOff, setPickedList, updateSat]

lemma pickOn_fields (s : VizState) (j : Nat) (satdata : SatData) :
    (pickOn s j satdata).sats = s.sats.set j { satdata with picked := true } ∧
    (pickOn s j satdata).picked_sats = s.picked_sats ++ [j] ∧
    (pickOn s j satdata).plotted_sats = s.plotted_sats ∧
    (pickOn s j satdata).curr_time = s.curr_time ∧
    (pickOn s j satdata).locked = s.locked ∧
    (pickOn s j satdata).last_picked = s.last_picked := by
  simp [pickOn, setPickedList, updateSat]

lemma pickOff_inv (s : VizState) (j : Nat) (satdata : SatData)
    (hsj : s.sats.get? j = some satdata) (hInv : PickedInv s) :
    PickedInv (pickOff s j satdata) := by
  obtain ⟨hnodup, hbound, hiff⟩ := hInv
  obtain ⟨hf1, hf2, _, _, _, _⟩ := pickOff_fields s j satdata
  have hjlen : j < s.sats.length := get?_some_lt hsj
  refine ⟨?_, ?_, ?_⟩
  · rw [hf2]; exact hnodup.erase j
  · intro j2 hj2
    rw [hf2] at hj2
    have := hbound j2 (List.mem_of_mem_erase hj2)
    rw [hf1, List.length_set]
    exact this
  · intro j2 sd2 hsd2
    rw [hf1] at hsd2
    rw [hf2]
    by_cases hjj : j2 = j
    · subst hjj
      rw [get?_set_self _ _ _ hjlen] at hsd2
      cases Option.some.inj hsd2
      simp [List.Nodup.mem_erase_iff hnodup]
    · rw [get?_set_ne _ _ _ _ (fun h => hjj h.symm)] at hsd2
      rw [List.Nodup.mem_erase_iff hnodup]
      constructor
      · intro hpk
        exact ⟨hjj, (hiff j2 sd2 hsd2).mp hpk⟩
      · rintro ⟨_, hm⟩
        exact (hiff j2 sd2 hsd2).mpr hm

lemma pickOn_inv (s : VizState) (j : Nat) (satdata : SatData)
    (hsj : s.sats.get? j = some satdata) (hp : satdata.picked = false) (hInv : PickedInv s) :
    PickedInv (pickOn s j satdata) := by
  obtain ⟨hnodup, hbound, hiff⟩ := hInv
  obtain ⟨hf1, hf2, _, _, _, _⟩ := pickOn_fields s j satdata
  have hjlen : j < s.sats.length := get?_some_lt hsj
  have hnm : j ∉ s.picked_sats := by
    intro hm
    have := (hiff j satdata hsj).mpr hm
    rw [hp] at this
    exact Bool.noConfusion this
  refine ⟨?_, ?_, ?_⟩
  · rw [hf2]
    simp only [List.nodup_append, List.nodup_cons, List.not_mem_nil, not_false_iff,
      List.nodup_nil, and_true, true_and]
    constructor
    · exact hnodup
    · intro a ha
      simp only [List.mem_singleton]
      intro haj
      exact hnm (haj ▸ ha)
  · intro j2 hj2
    rw [hf2] at hj2
    rw [hf1, List.length_set]
    rcases List.mem_append.mp hj2 with h | h
    · exact hbound j2 h
    · rw [List.mem_singleton] at h
      exact h ▸ hjlen
  · intro j2 sd2 hsd2
    rw [hf1] at hsd2
    rw [hf2]
    by_cases hjj : j2 = j
    · subst hjj
      rw [get?_set_self _ _ _ hjlen] at hsd2
      cases Option.some.inj hsd2
      simp
    · rw [get?_set_ne _ _ _ _ (fun h => hjj h.symm)] at hsd2
      rw [List.mem_append, List.mem_singleton]
      constructor
      · intro hpk
        exact Or.inl ((hiff j2 sd2 hsd2).mp hpk)
      · rintro (hm | hm)
        · exact (hiff j2 sd2 hsd2).mpr hm
        · exact absurd hm hjj

/-- One full pick-loop run under the invariant: it finishes without an
exception, preserves the invariant, toggles exactly the records at the
delivered plot indices and leaves everything else alone. -/
lemma onpickLoop_toggle :
    ∀ (ks : List Nat) (s : VizState),
      PickedInv s →
      (∀ k ∈ ks, ∃ j, s.plotted_sats.get? k = some j ∧ j < s.sats.length) →
      (ks.filterMap fun k => s.plotted_sats.get? k).Nodup →
      ∃ s2, onpickLoop s ks = (s2, none) ∧ PickedInv s2 ∧
        s2.plotted_sats = s.plotted_sats ∧
        s2.curr_time = s.curr_time ∧
        s2.locked = s.locked ∧
        s2.sats.length = s.sats.length ∧
        (∀ j, (∀ k ∈ ks, s.plotted_sats.get? k ≠ some j) →
          s2.sats.get? j = s.sats.get? j ∧ (j ∈ s2.picked_sats ↔ j ∈ s.picked_sats)) ∧
        (∀ k ∈ ks, ∀ j satdata, s.plotted_sats.get? k = some j →
          s.sats.get? j = some satdata →
          ∃ satdata2, s2.sats.get? j = some satdata2 ∧
            satdata2.picked = !satdata.picked) := by
  intro ks
  induction ks with
  | nil =>
      intro s hInv _ _
      exact ⟨s, rfl, hInv, rfl, rfl, rfl, rfl, fun j _ => ⟨rfl, Iff.rfl⟩,
        fun k hk => absurd hk (List.not_mem_nil k)⟩
  | cons k rest ih =>
      intro s hInv hks hnd
      obtain ⟨j, hkj, hjlen⟩ := hks k (List.mem_cons_self k rest)
      obtain ⟨hnodup, hbound, hiff⟩ := hInv
      cases hsj : s.sats.get? j with
      | none => rw [List.get?_eq_none] at hsj; omega
      | some satdata =>
      have hfm : (List.filterMap (fun k2 => s.plotted_sats.get? k2) (k :: rest)) =
          j :: List.filterMap (fun k2 => s.plotted_sats.get? k2) rest := by
        simp only [List.filterMap_cons]
        rw [hkj]
      rw [hfm] at hnd
      have hjrest : ∀ k2 ∈ rest, s.plotted_sats.get? k2 ≠ some j := by
        intro k2 hk2 hcontra
        exact (List.nodup_cons.mp hnd).1 (List.mem_filterMap.mpr ⟨k2, hk2, hcontra⟩)
      have hndrest := (List.nodup_cons.mp hnd).2
      -- facts used by both branches, stated for the одна-iteration state sp
      have hcont : ∀ (sp : VizState),
          sp.sats = s.sats.set j { satdata with picked := !satdata.picked } →
          (∀ j2, j2 ≠ j → (j2 ∈ sp.picked_sats ↔ j2 ∈ s.picked_sats)) →
          sp.plotted_sats = s.plotted_sats →
          sp.curr_time = s.curr_time → sp.locked = s.locked →
          PickedInv sp →
          onpickLoop sp rest = (onpickLoop sp rest) →
          ∃ s2, onpickLoop sp rest = (s2, none) ∧ PickedInv s2 ∧
            s2.plotted_sats = s.plotted_sats ∧
            s2.curr_time = s.curr_time ∧
            s2.locked = s.locked ∧
            s2.sats.length = s.sats.length ∧
            (∀ j0, (∀ k2 ∈ k :: rest, s.plotted_sats.get? k2 ≠ some j0) →
              s2.sats.get? j0 = s.sats.get? j0 ∧
                (j0 ∈ s2.picked_sats ↔ j0 ∈ s.picked_sats)) ∧
            (∀ k2 ∈ k :: rest, ∀ j2 sd2, s.plotted_sats.get? k2 = some j2 →
              s.sats.get? j2 = some sd2 →
              ∃ satdata2, s2.sats.get? j2 = some satdata2 ∧
                satdata2.picked = !sd2.picked) := by
        intro sp hsats hpicked hplot hct hlk hInvp _
        have hks2 : ∀ k2 ∈ rest, ∃ j2, sp.plotted_sats.get? k2 = some j2 ∧
            j2 < sp.sats.length := by
          intro k2 hk2
          obtain ⟨j2, hj2, hj2len⟩ := hks k2 (List.mem_cons_of_mem _ hk2)
          exact ⟨j2, by rw [hplot]; exact hj2, by rw [hsats, List.length_set]; exact hj2len⟩
        have hnd2 : (rest.filterMap fun k2 => sp.plotted_sats.get? k2).Nodup := by
          rw [show (fun k2 => sp.plotted_sats.get? k2) =
            (fun k2 => s.plotted_sats.get? k2) from funext fun k2 => by rw [hplot]]
          exact hndrest
        obtain ⟨s2, hloop2, hInv2, hplot2, hct2, hlk2, hlen2, hun2, htg2⟩ :=
          ih sp hInvp hks2 hnd2
        refine ⟨s2, hloop2, hInv2, by rw [hplot2, hplot], by rw [hct2, hct],
          by rw [hlk2, hlk], by rw [hlen2, hsats, List.length_set], ?_, ?_⟩
        · intro j0 havoid
          have hne : j0 ≠ j := by
            intro h
            exact havoid k (List.mem_cons_self k rest) (h ▸ hkj)
          obtain ⟨hu1, hu2⟩ := hun2 j0 (by
            intro k2 hk2
            rw [hplot]
            exact havoid k2 (List.mem_cons_of_mem _ hk2))
          constructor
          · rw [hu1, hsats, get?_set_ne _ _ _ _ (fun h => hne h.symm)]
          · rw [hu2]
            exact hpicked j0 hne
        · intro k2 hk2 j2 sd2 hk2j2 hsd2
          rcases List.mem_cons.mp hk2 with heq | hmemrest
          · subst heq
            have hj2 : j2 = j := Option.some.inj (hk2j2.symm.trans hkj)
            subst hj2
            have hsd : sd2 = satdata := Option.some.inj (hsd2.symm.trans hsj)
            subst hsd
            obtain ⟨hu1, _⟩ := hun2 j2 (by
              intro k3 hk3
              rw [hplot]
              exact hjrest k3 hk3)
            refine ⟨{ sd2 with picked := !sd2.picked }, ?_, rfl⟩
            rw [hu1, hsats, get?_set_self _ _ _ (get?_some_lt hsj)]
          · have hne2 : j2 ≠ j := by
              intro h
              exact hjrest k2 hmemrest (h ▸ hk2j2)
            have hs2d : sp.sats.get? j2 = some sd2 := by
              rw [hsats, get?_set_ne _ _ _ _ (fun h => hne2 h.symm)]
              exact hsd2
            exact htg2 k2 hmemrest j2 sd2 (by rw [hplot]; exact hk2j2) hs2d
      by_cases hp : satdata.picked = true
      · -- toggle off
        have hmem : j ∈ s.picked_sats := (hiff j satdata hsj).mp hp
        have hmem1 : j ∈ (updateSat s j { satdata with picked := false }).picked_sats := by
          simpa [updateSat] using hmem
        obtain ⟨hf1, hf2, hf3, hf4, hf5, hf6⟩ := pickOff_fields s j satdata
        obtain ⟨s2, hloop2, hrest⟩ := hcont (pickOff s j satdata)
          (by rw [hf1, hp]; rfl)
          (by
            intro j2 hne
            rw [hf2, List.Nodup.mem_erase_iff hnodup]
            constructor
            · rintro ⟨_, hm⟩; exact hm
            · intro hm; exact ⟨hne, hm⟩)
          hf3 hf4 hf5 (pickOff_inv s j satdata hsj ⟨hnodup, hbound, hiff⟩) rfl
        refine ⟨s2, ?_, hrest⟩
        rw [onpickLoop, hkj]
        dsimp only
        rw [hsj]
        dsimp only
        rw [if_pos hp, if_pos hmem1]
        exact hloop2
      · -- toggle on
        rw [Bool.not_eq_true] at hp
        obtain ⟨hf1, hf2, hf3, hf4, hf5, hf6⟩ := pickOn_fields s j satdata
        obtain ⟨s2, hloop2, hrest⟩ := hcont (pickOn s j satdata)
          (by rw [hf1, hp]; rfl)
          (by
            intro j2 hne
            rw [hf2, List.mem_append, List.mem_singleton]
            constructor
            · rintro (hm | hm)
              · exact hm
              · exact absurd hm hne
            · exact Or.inl)
          hf3 hf4 hf5 (pickOn_inv s j satdata hsj hp ⟨hnodup, hbound, hiff⟩) rfl
        refine ⟨s2, ?_, hrest⟩
        rw [onpickLoop, hkj]
        dsimp only
        rw [hsj]
        dsimp only
        rw [if_neg (by rw [hp]; exact Bool.false_ne_true)]
        exact hloop2

/-- C7: of two pick events delivered within the rate-limit window, only the
first is applied: it toggles the picked flag of the record at each delivered
plot index, with the tracked list gaining the record on toggle-to-true and
losing it on toggle-to-false; the second event returns without an exception
and changes neither a picked flag nor the tracked list (only the remembered
last mouse event). -/
theorem onpick_rate_limit_toggle (s : VizState) (now1 now2 : ℚ) (e1 e2 : PickEvent)
    (hInv : PickedInv s)
    (hidx : ∀ k ∈ e1.ind, ∃ j, s.plotted_sats.get? k = some j ∧ j < s.sats.length)
    (hnodup : (e1.ind.filterMap fun k => s.plotted_sats.get? k).Nodup)
    (hacc : ¬(now1 - s.curr_time < click_wait_s))
    (hfast : now2 - now1 < click_wait_s) :
    ∃ s1, onpick s now1 e1 = (s1, none) ∧
      (∀ k ∈ e1.ind, ∀ j satdata, s.plotted_sats.get? k = some j →
        s.sats.get? j = some satdata →
        ∃ satdata2, s1.sats.get? j = some satdata2 ∧
          satdata2.picked = !satdata.picked ∧
          (satdata.picked = false → j ∈ s1.picked_sats) ∧
          (satdata.picked = true → j ∉ s1.picked_sats)) ∧
      onpick s1 now2 e2 = ({ s1 with last_picked := some e2.mouse }, none) := by
  obtain ⟨s2, hloop, hInv2, hplot2, hct2, hlk2, hlen2, hun2, htg2⟩ :=
    onpickLoop_toggle e1.ind
      { s with last_picked := some e1.mouse, curr_time := now1, locked := true }
      hInv hidx hnodup
  have hcurr : s2.curr_time = now1 := hct2
  refine ⟨{ s2 with locked := false }, ?_, ?_, ?_⟩
  · unfold onpick
    dsimp only
    rw [if_neg hacc, hloop]
  · intro k hk j satdata hkj hsj
    obtain ⟨satdata2, hs2, hpk⟩ := htg2 k hk j satdata hkj hsj
    obtain ⟨_, _, hiff2⟩ := hInv2
    refine ⟨satdata2, hs2, hpk, ?_, ?_⟩
    · intro hp
      show j ∈ s2.picked_sats
      apply (hiff2 j satdata2 hs2).mp
      rw [hpk, hp]
      rfl
    · intro hp
      show j ∉ s2.picked_sats
      intro hm
      have hcontra := (hiff2 j satdata2 hs2).mpr hm
      rw [hpk, hp] at hcontra
      exact Bool.noConfusion hcontra
  · unfold onpick
    dsimp only
    rw [if_pos (show now2 - s2.curr_time < click_wait_s from by rw [hcurr]; exact hfast)]

lemma vizDemo_inv : PickedInv vizDemo := by
  refine ⟨List.nodup_nil, by simp [vizDemo], ?_⟩
  intro j sd h
  cases j with
  | zero =>
      have hq : vizDemo.sats.get? 0 = some satQuiet := rfl
      have hsd : sd = satQuiet := Option.some.inj (h.symm.trans hq)
      subst hsd
      simp [satQuiet, mkNewSat, vizDemo]
  | succ n =>
      have hq : vizDemo.sats.get? (n + 1) = none := rfl
      rw [hq] at h
      exact Option.noConfusion h

/-- C7 witness: a concrete accepted pick at one plotted index followed by a
second pick one twentieth of a second later. -/
theorem onpick_rate_limit_toggle_witness :
    ∃ s1, onpick vizDemo 1 (PickEvent.mk 5 [0]) = (s1, none) ∧
      (∀ k ∈ [0], ∀ j satdata, vizDemo.plotted_sats.get? k = some j →
        vizDemo.sats.get? j = some satdata →
        ∃ satdata2, s1.sats.get? j = some satdata2 ∧
          satdata2.picked = !satdata.picked ∧
          (satdata.picked = false → j ∈ s1.picked_sats) ∧
          (satdata.picked = true → j ∉ s1.picked_sats)) ∧
      onpick s1 (21 / 20) (PickEvent.mk 6 [0]) =
        ({ s1 with last_picked := some 6 }, none) :=
  onpick_rate_limit_toggle vizDemo 1 (21 / 20) (PickEvent.mk 5 [0]) (PickEvent.mk 6 [0])
    vizDemo_inv
    (by
      intro k hk
      rw [List.mem_singleton] at hk
      subst hk
      exact ⟨0, rfl, by decide⟩)
    (by decide)
    (by norm_num [vizDemo, click_wait_s])
    (by norm_num [click_wait_s])

/-- C6 witness: an in-range pick and a secondary-button click on a concrete
one-record frame both return with the lock free, no exception and no
mutation outside the lock. -/
theorem handlers_lock_discipline_witness :
    ((onpick vizDemo 1 (PickEvent.mk 7 [0])).2 = none ∧
      (onpick vizDemo 1 (PickEvent.mk 7 [0])).1.locked = false ∧
      (onpick vizDemo 1 (PickEvent.mk 7 [0])).1.badMutation = false) ∧
    ((onclick vizDemo 1 (ClickEvent.mk 8 3)).2 = none ∧
      (onclick vizDemo 1 (ClickEvent.mk 8 3)).1.locked = false ∧
      (onclick vizDemo 1 (ClickEvent.mk 8 3)).1.badMutation = false) :=
  handlers_lock_discipline vizDemo 1 (PickEvent.mk 7 [0]) (ClickEvent.mk 8 3) rfl rfl
    (by
      intro k hk
      rw [List.mem_singleton] at hk
      subst hk
      exact ⟨0, rfl, by decide⟩)

end SatViz
